import Mathlib

/-!
Verification of the `reboot-to` utility (src/main.rs) against its
natural-language specification.

The development shallowly embeds the program's core logic:

* `parse_boot_targets` — the two regex passes of `fn parse_boot_targets`
  (main.rs lines 125-162), modelled as scans over the whole text: both
  regexes are anchored with `(?m)^...$`, so every match starts at a line
  start and ends at a line end, but the `\s` class still matches a
  newline, so the whitespace run after the asterisk or colon can carry a
  match across a line break.
* `BootTargets.lookup` — `fn lookup` (main.rs lines 107-116).
* `handleKeyPress` / `tuiRun` — the interactive loop of `fn tui_selection`
  (main.rs lines 218-355), with terminal I/O and the external `ListState`
  collaborator made explicit.
* `reboot_to`, `set_next_boot_wrapper`, `dispatch_action` — the action
  dispatch (main.rs lines 173-215 and 348-352), with the two external
  commands modelled as invocation records plus an outcome oracle.

Machine integers are `Nat` with explicit bounds where overflow matters
(`usize` saturation / underflow, `u16` range in parsing).
-/

namespace RebootTo

/-- `struct BootTarget` (main.rs lines 70-74): `id` is a `u16`
(the parser only ever stores values `< 65536`), `name` the display text. -/
structure BootTarget where
  id : Nat
  name : String
deriving DecidableEq, Repr

/-- `struct BootTargets` (main.rs lines 76-81). -/
structure BootTargets where
  targets : List BootTarget
  current : Option Nat
  next : Option Nat
deriving DecidableEq, Repr

/-- `enum ChosenAction` (main.rs lines 83-88). -/
inductive ChosenAction where
  | none
  | rebootTo (t : BootTarget)
  | setNext (t : BootTarget)
deriving DecidableEq, Repr

/-! ### u16 parsing (`str::parse::<u16>()`) -/

/-- Numeric value of a digit string (most significant first). -/
def digitsVal (ds : List Char) : Nat :=
  ds.foldl (fun acc c => acc * 10 + (c.toNat - '0'.toNat)) 0

/-- Rust's `u16::from_str`: an optional leading `'+'`, then one or more
ASCII digits, and the value must fit in 16 bits (otherwise `Err`,
modelled as `none`). -/
def parse_u16_chars (cs : List Char) : Option Nat :=
  let ds := match cs with
    | '+' :: rest => rest
    | _ => cs
  if ds.isEmpty then Option.none
  else if ds.all Char.isDigit then
    let v := digitsVal ds
    if v < 65536 then some v else Option.none
  else Option.none

/-- `query.parse::<u16>()` on a string. -/
def parse_u16 (s : String) : Option Nat := parse_u16_chars s.data

/-! ### The two regexes, over the whole text

`regex_options` is `(?m)^([a-zA-Z]+):\s+(.*)$` and `regex_targets` is
`(?m)^[a-zA-Z]*([0-9]+)\*\s+(.*?)\t.*$` (main.rs lines 126-129).  With
`(?m)`, `^` anchors every match at a line start and `$` / `.` stop at a
newline, but the `\s` class still matches a newline, so the whitespace
run after the asterisk or colon can carry a match across a line break.
`captures_iter` yields the non-overlapping matches from left to right:
the scan attempts a match at each line start and, after a match, resumes
at the line following the matched text.

A match attempt at a line start is deterministic except for `\s+` before
`(.*?)\t`: the letter run and the digit run are over disjoint classes
(shrinking either only puts a rejected character first), the literals
leave no choice, and `\s+` before the greedy `(.*)` always succeeds with
its maximal run since `(.*)$` matches any line remainder.  For
`\s+(.*?)\t`, preference order tries the greedy `\s+` from its maximal
run downwards, and the lazy `(.*?)` stops at the first tab of the line
the run ends in (`.` cannot cross a newline). -/

/-- The regex class `[a-zA-Z]`. -/
def isAsciiAlpha (c : Char) : Bool :=
  ('a' ≤ c && c ≤ 'z') || ('A' ≤ c && c ≤ 'Z')

/-- The regex class `\s` with the default Unicode flag: the characters
with the `White_Space` property (U+0009..U+000D, space, U+0085, U+00A0,
U+1680, U+2000..U+200A, U+2028, U+2029, U+202F, U+205F, U+3000). -/
def isWs (c : Char) : Bool :=
  c == '\t' || c == '\n' || c == '\x0b' || c == '\x0c' || c == '\r' ||
  c == ' ' || c == '\x85' || c == '\xa0' || c.val == 0x1680 ||
  (0x2000 ≤ c.val && c.val ≤ 0x200a) ||
  c.val == 0x2028 || c.val == 0x2029 || c.val == 0x202f || c.val == 0x205f ||
  c.val == 0x3000

/-- Backtracking search for `\s+(.*?)\t.*$` after the asterisk: try the
whitespace run `\s+` from its maximal length `j` downwards; the first
length for which the line the run ends in still holds a tab wins.  The
captured name is that line up to its first tab, and the returned
remainder is the matched line's end (the `.*$` tail consumed). -/
def findNameFull (tail : List Char) : Nat → Option (List Char × List Char)
  | 0 => Option.none
  | j + 1 =>
      let rem := tail.drop (j + 1)
      let lineRem := rem.takeWhile (fun c => c != '\n')
      if lineRem.contains '\t' then
        some (lineRem.takeWhile (fun c => c != '\t'), rem.dropWhile (fun c => c != '\n'))
      else findNameFull tail j

/-- Attempt `regex_targets` at a line start: maximal letters, at least
one digit (maximal), a literal `*`, then `\s+(.*?)\t.*$`.  On success
return the digit capture, the name capture, and the text from the end of
the match (which is a line end). -/
def matchEntryAt (cs : List Char) : Option (List Char × List Char × List Char) :=
  let afterAlpha := cs.dropWhile isAsciiAlpha
  let digits := afterAlpha.takeWhile Char.isDigit
  let rest := afterAlpha.dropWhile Char.isDigit
  if digits.isEmpty then Option.none
  else
    match rest with
    | '*' :: tail =>
        let w := tail.takeWhile isWs
        if w.isEmpty then Option.none
        else (findNameFull tail w.length).map (fun p => (digits, p.1, p.2))
    | _ => Option.none

/-- Attempt `regex_options` at a line start: at least one letter
(maximal), a colon, at least one whitespace character (maximal run, which
may cross line breaks), and the value is the remainder of the line the
run ends in.  On success return the key capture, the value capture, and
the text from the end of the match (a line end). -/
def matchOptionAt (cs : List Char) : Option (List Char × List Char × List Char) :=
  let key := cs.takeWhile isAsciiAlpha
  let rest := cs.dropWhile isAsciiAlpha
  if key.isEmpty then Option.none
  else
    match rest with
    | ':' :: tail =>
        let w := tail.takeWhile isWs
        if w.isEmpty then Option.none
        else
          let rem := tail.dropWhile isWs
          some (key, rem.takeWhile (fun c => c != '\n'), rem.dropWhile (fun c => c != '\n'))
    | _ => Option.none

/-- Step over the newline that ends the current line, entering the next
line start (the matchers and the failure path always stop at a line
end: an empty list or one headed by a newline). -/
def chopNl : List Char → List Char
  | '\n' :: rest => rest
  | l => l

/-- `captures_iter`: attempt a match at each line start; on success emit
its captures and resume at the line after the match, on failure skip to
the next line.  Every step from a non-empty text recurses on a strictly
shorter one, so `length + 1` units of fuel always suffice. -/
def scanCaptures (matchAt : List Char → Option (List Char × List Char × List Char)) :
    Nat → List Char → List (List Char × List Char)
  | 0, _ => []
  | _, [] => []
  | fuel + 1, cs =>
      match matchAt cs with
      | some (a, b, rest) => (a, b) :: scanCaptures matchAt fuel (chopNl rest)
      | Option.none => scanCaptures matchAt fuel (chopNl (cs.dropWhile (fun c => c != '\n')))

/-- The captures of `regex_options.captures_iter(raw)` (main.rs line 138). -/
def optionCaptures (cs : List Char) : List (List Char × List Char) :=
  scanCaptures matchOptionAt (cs.length + 1) cs

/-- The captures of `regex_targets.captures_iter(raw)` (main.rs line 147). -/
def entryCaptures (cs : List Char) : List (List Char × List Char) :=
  scanCaptures matchEntryAt (cs.length + 1) cs

/-! ### The parser (`fn parse_boot_targets`, main.rs lines 125-162) -/

/-- One step of the options pass (main.rs lines 138-144): a capture whose
key is `BootCurrent` or `BootNext` assigns the corresponding field,
defaulting an unparseable value to `1`; other keys are ignored. -/
def applyOptionCapture (acc : BootTargets) (p : List Char × List Char) : BootTargets :=
  if String.mk p.1 = "BootCurrent" then
    { acc with current := some ((parse_u16_chars p.2).getD 1) }
  else if String.mk p.1 = "BootNext" then
    { acc with next := some ((parse_u16_chars p.2).getD 1) }
  else acc

/-- One step of the targets pass (main.rs lines 147-159): a capture whose
digit field parses as a `u16` appends an entry; an unparseable id is
silently skipped (`continue`). -/
def applyEntryCapture (acc : BootTargets) (p : List Char × List Char) : BootTargets :=
  match parse_u16_chars p.1 with
  | Option.none => acc
  | some id => { acc with targets := acc.targets ++ [⟨id, String.mk p.2⟩] }

/-- `fn parse_boot_targets` (main.rs lines 125-162): start from the empty
catalog, fold the options captures, then the targets captures.  The
function is total — malformed input yields fewer entries or absent
fields, never an error. -/
def parse_boot_targets (raw : String) : BootTargets :=
  let withOpts := (optionCaptures raw.data).foldl applyOptionCapture
    { targets := [], current := Option.none, next := Option.none }
  (entryCaptures raw.data).foldl applyEntryCapture withOpts

/-- Split a character list at a separator character (used by the
claim-side, per-line reading of the patterns). -/
def splitOnChar (c : Char) : List Char → List (List Char)
  | [] => [[]]
  | x :: xs =>
      let r := splitOnChar c xs
      if x = c then [] :: r
      else
        match r with
        | y :: ys => (x :: y) :: ys
        | [] => [[x]]

/-- The lines of the raw listing text. -/
def linesOf (raw : String) : List (List Char) := splitOnChar '\n' raw.data

/-! ### Lookup (`fn lookup`, main.rs lines 107-116) -/

/-- Rust's `str::starts_with` on character lists: does the first list
start with the second? -/
def startsWithChars : List Char → List Char → Bool
  | _, [] => true
  | [], _ :: _ => false
  | c :: cs, p :: ps => c == p && startsWithChars cs ps

/-- `target.name.starts_with(query)`. -/
def starts_with (s pat : String) : Bool := startsWithChars s.data pat.data

/-- `fn lookup` (main.rs lines 107-116): a query that parses as a `u16`
is matched against ids only; any other query is matched as a
case-sensitive name beginning. -/
def BootTargets.lookup (ts : BootTargets) (query : String) : Option BootTarget :=
  match parse_u16 query with
  | some id => ts.targets.find? (fun t => t.id == id)
  | Option.none => ts.targets.find? (fun t => starts_with t.name query)

/-! ### The selection loop (`fn tui_selection`, main.rs lines 218-355)

The loop state is the `ListState` selection (an `Option<usize>`, initially
`Some(0)`) together with the `ChosenAction` local.  Key handling translates
the `if` chain of main.rs lines 276-338; the `ListState` collaborator and
the draw step are external to `src/` and are modelled from the spec
(§4.3: `selected_index` is "0-based, clamped to `[0, entry_count)`"),
matching the ratatui documentation of `select_first` / `select_last` /
`select_next` / `select_previous`. -/

/-- `usize::MAX`, the saturation bound of `usize` arithmetic. -/
def USIZE_MAX : Nat := 2 ^ 64 - 1

/-- The mutable locals of the loop: the list selection and the chosen
action (main.rs lines 221 and 230). -/
structure LoopState where
  selected : Option Nat
  action : ChosenAction
deriving DecidableEq, Repr

/-- `ListState::default().with_selected(Some(0))` with no action chosen. -/
def initLoopState : LoopState := ⟨some 0, ChosenAction.none⟩

/-- Outcome of handling one key-press event: keep looping, `break` out of
the loop, or hit the unchecked `item_count - 1` subtraction on an empty
list (a `usize` underflow: a panic in debug builds, a wrap-around in
release builds). -/
inductive StepOutcome where
  | next (st : LoopState)
  | exit (st : LoopState)
  | underflow
deriving DecidableEq, Repr

/-- Modelled from the spec: `ListState::select_first` selects row 0. -/
def selectFirst : Option Nat := some 0

/-- Modelled from the spec: `ListState::select_last` stores a selection
past any list end (`usize::MAX`); the next draw clamps it to the last
row (spec §4.3: the index is "clamped to `[0, entry_count)`"). -/
def selectLast : Option Nat := some USIZE_MAX

/-- Modelled from the spec: `ListState::select_next` moves one row down
(saturating), from no selection to row 0. -/
def selectNext (sel : Option Nat) : Option Nat :=
  some (match sel with
    | Option.none => 0
    | some i => min (i + 1) USIZE_MAX)

/-- Modelled from the spec: `ListState::select_previous` moves one row up
(saturating), from no selection to the very end. -/
def selectPrevious (sel : Option Nat) : Option Nat :=
  some (match sel with
    | Option.none => USIZE_MAX
    | some i => i - 1)

/-- Modelled from the spec: drawing the list clamps a stored selection to
the last row (spec §4.3: `selected_index` is "clamped to
`[0, entry_count)`"); with no rows there is nothing to clamp against and
the state is left untouched. -/
def renderClamp (itemCount : Nat) (st : LoopState) : LoopState :=
  if itemCount = 0 then st
  else { st with selected := st.selected.map (fun i => min i (itemCount - 1)) }

/-- The `Enter` / `n` action choice (main.rs lines 312-335): only a
selection that is a valid entry index replaces the action; otherwise the
action is left as it was. -/
def chosenFor (ts : List BootTarget) (sel : Option Nat) (mk : BootTarget → ChosenAction)
    (old : ChosenAction) : ChosenAction :=
  match sel with
  | some index =>
      if index < ts.length then
        match ts.get? index with
        | some t => mk t
        | Option.none => old
      else old
  | Option.none => old

/-- The key-press events the handler distinguishes (main.rs lines
276-338); `other` stands for every other key, which is ignored. -/
inductive Key where
  | charQ
  | esc
  | ctrlC
  | down
  | up
  | home
  | endKey
  | enter
  | charN
  | other
deriving DecidableEq, Repr

/-- The key-press handler of the loop body (main.rs lines 276-338).
`q` / `Esc` / `Ctrl+C` break with the action unchanged; `Down` first
evaluates `item_count - 1`, which underflows on an empty list; `Enter` /
`n` always break, setting the action only for a valid index. -/
def handleKeyPress (ts : List BootTarget) (st : LoopState) (k : Key) : StepOutcome :=
  let item_count := ts.length
  match k with
  | Key.charQ => StepOutcome.exit st
  | Key.esc => StepOutcome.exit st
  | Key.ctrlC => StepOutcome.exit st
  | Key.down =>
      if item_count = 0 then StepOutcome.underflow
      else if st.selected.getD 0 ≥ item_count - 1 then
        StepOutcome.next { st with selected := selectFirst }
      else
        StepOutcome.next { st with selected := selectNext st.selected }
  | Key.up =>
      if st.selected.getD 0 ≤ 0 then
        StepOutcome.next { st with selected := selectLast }
      else
        StepOutcome.next { st with selected := selectPrevious st.selected }
  | Key.home => StepOutcome.next { st with selected := selectFirst }
  | Key.endKey => StepOutcome.next { st with selected := selectLast }
  | Key.enter => StepOutcome.exit { st with action := chosenFor ts st.selected ChosenAction.rebootTo st.action }
  | Key.charN => StepOutcome.exit { st with action := chosenFor ts st.selected ChosenAction.setNext st.action }
  | Key.other => StepOutcome.next st

/-- The selection a user observes after a navigation key: the handler
result followed by the clamp of the next draw (`none` when the key ended
the loop or underflowed). -/
def navResult (ts : List BootTarget) (st : LoopState) (k : Key) : Option (Option Nat) :=
  match handleKeyPress ts st k with
  | StepOutcome.next st2 => some ((renderClamp ts.length st2).selected)
  | _ => Option.none

/-- One terminal interaction of the loop, as seen at the `?` operators of
main.rs lines 270-275: a failing draw / poll / read, an empty poll, an
ignored event (key release / repeat / non-key), or a key press. -/
inductive IoEvent where
  | ioError
  | timeout
  | ignored
  | keyPress (k : Key)
deriving DecidableEq, Repr

/-- What a run of `tui_selection` did: whether it returned `Ok`, whether
the terminal restore (`LeaveAlternateScreen` + `disable_raw_mode`,
main.rs lines 344-345) was executed, and the chosen action. -/
structure TuiOutcome where
  ok : Bool
  restored : Bool
  action : ChosenAction
deriving DecidableEq, Repr

/-- The loop of `fn tui_selection` (main.rs lines 232-341) driven by a
script of terminal interactions.  Each iteration draws (which clamps the
selection) and then consumes one event.  An `ioError` is propagated by
`?` at once — before the restore lines 344-345 are reached — so the
outcome records `restored := false`; a `break` falls through to the
restore.  `none` means the script ran out while the loop was still
polling. -/
def tuiRun (ts : List BootTarget) : LoopState → List IoEvent → Option TuiOutcome
  | _, [] => Option.none
  | st, e :: rest =>
      let st1 := renderClamp ts.length st
      match e with
      | IoEvent.ioError => some ⟨false, false, st1.action⟩
      | IoEvent.timeout => tuiRun ts st1 rest
      | IoEvent.ignored => tuiRun ts st1 rest
      | IoEvent.keyPress k =>
          match handleKeyPress ts st1 k with
          | StepOutcome.next st2 => tuiRun ts st2 rest
          | StepOutcome.exit st2 => some ⟨true, true, st2.action⟩
          | StepOutcome.underflow => some ⟨false, false, st1.action⟩

/-- `fn tui_selection` from its initial state (main.rs lines 218-355). -/
def tui_selection (ts : List BootTarget) (events : List IoEvent) : Option TuiOutcome :=
  tuiRun ts initLoopState events

/-! ### Action dispatch (main.rs lines 173-215 and 348-352)

The two external commands are opaque processes; an invocation is recorded
as name plus argument list, and the oracle outcome of a launch is either
an `io::Error` (the command could not be started) or an exit status. -/

/-- One external command invocation: program name and arguments. -/
structure CmdInvocation where
  name : String
  args : List String
deriving DecidableEq, Repr

/-- Result of `Command::status()`: a launch failure (`Err`) or an exit
status, identified by its code.  (A signal-terminated status behaves like
a non-zero code: `success()` is false.) -/
inductive CmdOutcome where
  | launchFailure
  | exited (code : Int)
deriving DecidableEq, Repr

/-- `ExitStatus::success()`: the process exited with code 0. -/
def statusSuccess : CmdOutcome → Bool
  | CmdOutcome.exited 0 => true
  | _ => false

/-- The messages the dispatcher prints (main.rs lines 184, 189, 200,
207, 212). -/
inductive Msg where
  | abortSetNext
  | nonZeroSetNext (code : Int)
  | rebootFailed
deriving DecidableEq, Repr

/-- What a dispatch performed: the commands it invoked, in order, and the
messages it printed. -/
structure DispatchResult where
  invocations : List CmdInvocation
  messages : List Msg
deriving DecidableEq, Repr

/-- Rust's `format!("{:0>4}", id)`: the decimal digits, left-padded with
`'0'` to a minimum width of four characters (wider numbers are printed in
full). -/
def format_width4 (n : Nat) : String :=
  let s := Nat.repr n
  if s.length < 4 then String.mk (List.replicate (4 - s.length) '0') ++ s else s

/-- The command built by `fn set_next_boot` (main.rs lines 173-178):
`efibootmgr` with the two arguments `--bootnext` and the padded id. -/
def set_next_boot_cmd (t : BootTarget) : CmdInvocation :=
  ⟨"efibootmgr", ["--bootnext", format_width4 t.id]⟩

/-- The command of main.rs lines 194-197: `shutdown -r now`. -/
def shutdown_cmd : CmdInvocation := ⟨"shutdown", ["-r", "now"]⟩

/-- `fn reboot_to` (main.rs lines 180-202), with the outcomes of the two
launches supplied by the oracle.  A launch failure of `set_next_boot`
aborts; a non-zero exit status only prints a message, after which the
`shutdown` command is invoked regardless. -/
def reboot_to (t : BootTarget) (setNextRes shutdownRes : CmdOutcome) : DispatchResult :=
  match setNextRes with
  | CmdOutcome.launchFailure => ⟨[set_next_boot_cmd t], [Msg.abortSetNext]⟩
  | CmdOutcome.exited c =>
      let msgs1 : List Msg :=
        if statusSuccess (CmdOutcome.exited c) then [] else [Msg.nonZeroSetNext c]
      let msgs2 : List Msg :=
        match shutdownRes with
        | CmdOutcome.launchFailure => [Msg.rebootFailed]
        | CmdOutcome.exited c2 =>
            if statusSuccess (CmdOutcome.exited c2) then [] else [Msg.rebootFailed]
      ⟨[set_next_boot_cmd t, shutdown_cmd], msgs1 ++ msgs2⟩

/-- `fn set_next_boot_wrapper` (main.rs lines 204-215). -/
def set_next_boot_wrapper (t : BootTarget) (setNextRes : CmdOutcome) : DispatchResult :=
  match setNextRes with
  | CmdOutcome.launchFailure => ⟨[set_next_boot_cmd t], [Msg.abortSetNext]⟩
  | CmdOutcome.exited c =>
      ⟨[set_next_boot_cmd t],
        if statusSuccess (CmdOutcome.exited c) then [] else [Msg.nonZeroSetNext c]⟩

/-- The `match action` dispatch at the end of `fn tui_selection`
(main.rs lines 348-352). -/
def dispatch_action (a : ChosenAction) (setNextRes shutdownRes : CmdOutcome) : DispatchResult :=
  match a with
  | ChosenAction.none => ⟨[], []⟩
  | ChosenAction.rebootTo t => reboot_to t setNextRes shutdownRes
  | ChosenAction.setNext t => set_next_boot_wrapper t setNextRes

/-! ### Spec-side characterisations

These definitions follow the claim's and spec's words (not the source)
and exist only to be compared with the parser above. -/

/-- The entry a capture contributes: its digit field must parse as a
`u16`; captures with an unparseable numeric field are skipped. -/
def entryOfCapture (p : List Char × List Char) : Option BootTarget :=
  match parse_u16_chars p.1 with
  | Option.none => Option.none
  | some id => some ⟨id, String.mk p.2⟩

/-- The value a capture offers for a given annotation key, if any. -/
def captureValueFor (key : String) (p : List Char × List Char) : Option (List Char) :=
  if String.mk p.1 = key then some p.2 else Option.none

/-- Follows the spec's words (§4.1): the annotation field for a key is
`None` when no capture carries the key; otherwise the (last) value parses
as an unsigned 16-bit integer giving `Some` of it, and an unparseable
value defaults to `Some 1`. -/
def annotFieldSpec (key : String) (caps : List (List Char × List Char)) : Option Nat :=
  match (caps.filterMap (captureValueFor key)).getLast? with
  | Option.none => Option.none
  | some v =>
      match parse_u16_chars v with
      | some n => some n
      | Option.none => some 1

/-- The claim's per-line reading of the entry pattern: the entry a single
line contributes when matched in isolation (a line holds no newline, so
`matchEntryAt` restricted to it is exactly the one-line match). -/
def entryOfLine (line : List Char) : Option BootTarget :=
  match matchEntryAt line with
  | Option.none => Option.none
  | some (idStr, nameStr, _) =>
      match parse_u16_chars idStr with
      | Option.none => Option.none
      | some id => some ⟨id, String.mk nameStr⟩

/-- The claim's per-line reading of the annotation pattern: the value a
single line carries for a key when matched in isolation. -/
def optionValueLine (key : String) (line : List Char) : Option (List Char) :=
  match matchOptionAt line with
  | Option.none => Option.none
  | some (k, v, _) => if String.mk k = key then some v else Option.none

/-! ## Helper lemmas -/

theorem length_filterMap_eq_countP {α β : Type} (f : α → Option β) (l : List α) :
    (l.filterMap f).length = l.countP (fun a => (f a).isSome) := by
  induction l with
  | nil => rfl
  | cons a t ih => cases h : f a <;> simp [List.filterMap_cons, h, List.countP_cons, ih]

theorem find_first_split {α : Type} (p : α → Bool) (l : List α) (a : α)
    (h : l.find? p = some a) :
    p a = true ∧ ∃ l1 l2, l = l1 ++ a :: l2 ∧ ∀ x ∈ l1, p x = false := by
  induction l with
  | nil => simp at h
  | cons b t ih =>
      cases hb : p b with
      | true =>
          rw [List.find?_cons_of_pos t hb] at h
          cases h
          exact ⟨hb, [], t, rfl, by simp⟩
      | false =>
          rw [List.find?_cons_of_neg t (by simp [hb])] at h
          obtain ⟨hpa, l1, l2, rfl, hall⟩ := ih h
          refine ⟨hpa, b :: l1, l2, rfl, ?_⟩
          intro x hx
          rcases List.mem_cons.mp hx with hx | hx
          · exact hx ▸ hb
          · exact hall x hx

theorem foldl_applyEntryCapture_targets (ps : List (List Char × List Char))
    (acc : BootTargets) :
    (ps.foldl applyEntryCapture acc).targets = acc.targets ++ ps.filterMap entryOfCapture := by
  induction ps generalizing acc with
  | nil => simp
  | cons p rest ih =>
      rw [List.foldl_cons, ih]
      cases h2 : parse_u16_chars p.1 with
      | none => simp [applyEntryCapture, entryOfCapture, h2, List.filterMap_cons]
      | some id => simp [applyEntryCapture, entryOfCapture, h2, List.filterMap_cons]

theorem foldl_applyEntryCapture_current (ps : List (List Char × List Char))
    (acc : BootTargets) :
    (ps.foldl applyEntryCapture acc).current = acc.current := by
  induction ps generalizing acc with
  | nil => rfl
  | cons p rest ih =>
      rw [List.foldl_cons, ih]
      cases h2 : parse_u16_chars p.1 <;> simp [applyEntryCapture, h2]

theorem foldl_applyEntryCapture_next (ps : List (List Char × List Char))
    (acc : BootTargets) :
    (ps.foldl applyEntryCapture acc).next = acc.next := by
  induction ps generalizing acc with
  | nil => rfl
  | cons p rest ih =>
      rw [List.foldl_cons, ih]
      cases h2 : parse_u16_chars p.1 <;> simp [applyEntryCapture, h2]

theorem foldl_applyOptionCapture_targets (ps : List (List Char × List Char))
    (acc : BootTargets) :
    (ps.foldl applyOptionCapture acc).targets = acc.targets := by
  induction ps generalizing acc with
  | nil => rfl
  | cons p rest ih =>
      rw [List.foldl_cons, ih]
      by_cases hk1 : String.mk p.1 = "BootCurrent" <;>
        by_cases hk2 : String.mk p.1 = "BootNext" <;>
          simp [applyOptionCapture, hk1, hk2]

theorem foldl_applyOptionCapture_current (ps : List (List Char × List Char))
    (acc : BootTargets) :
    (ps.foldl applyOptionCapture acc).current
      = ((ps.filterMap (captureValueFor "BootCurrent")).getLast?).elim acc.current
          (fun v => some ((parse_u16_chars v).getD 1)) := by
  induction ps using List.reverseRecOn with
  | nil => rfl
  | append_singleton xs p ih =>
      rw [List.foldl_append, List.foldl_cons, List.foldl_nil,
        List.filterMap_append]
      by_cases hk1 : String.mk p.1 = "BootCurrent"
      · simp [applyOptionCapture, captureValueFor, hk1]
      · by_cases hk2 : String.mk p.1 = "BootNext" <;>
          simp [applyOptionCapture, captureValueFor, hk1, hk2, ih]

theorem foldl_applyOptionCapture_next (ps : List (List Char × List Char))
    (acc : BootTargets) :
    (ps.foldl applyOptionCapture acc).next
      = ((ps.filterMap (captureValueFor "BootNext")).getLast?).elim acc.next
          (fun v => some ((parse_u16_chars v).getD 1)) := by
  induction ps using List.reverseRecOn with
  | nil => rfl
  | append_singleton xs p ih =>
      rw [List.foldl_append, List.foldl_cons, List.foldl_nil,
        List.filterMap_append]
      by_cases hk2 : String.mk p.1 = "BootNext"
      · simp [applyOptionCapture, captureValueFor, hk2,
          show String.mk p.1 ≠ "BootCurrent" from fun h => by simp [h] at hk2]
      · by_cases hk1 : String.mk p.1 = "BootCurrent" <;>
          simp [applyOptionCapture, captureValueFor, hk1, hk2, ih]

theorem parse_current_eq (raw : String) :
    (parse_boot_targets raw).current
      = annotFieldSpec "BootCurrent" (optionCaptures raw.data) := by
  unfold parse_boot_targets
  rw [foldl_applyEntryCapture_current, foldl_applyOptionCapture_current]
  unfold annotFieldSpec
  cases hl : ((optionCaptures raw.data).filterMap (captureValueFor "BootCurrent")).getLast? with
  | none => rfl
  | some v => cases h2 : parse_u16_chars v <;> simp [h2]

theorem parse_next_eq (raw : String) :
    (parse_boot_targets raw).next
      = annotFieldSpec "BootNext" (optionCaptures raw.data) := by
  unfold parse_boot_targets
  rw [foldl_applyEntryCapture_next, foldl_applyOptionCapture_next]
  unfold annotFieldSpec
  cases hl : ((optionCaptures raw.data).filterMap (captureValueFor "BootNext")).getLast? with
  | none => rfl
  | some v => cases h2 : parse_u16_chars v <;> simp [h2]

/-! ## Claims -/

/-- Counterexample for C4: on `"Boot0001* \nX\ty"` the whitespace after
the asterisk spans the line break, so the program's regex finds a match
and the parser produces the entry `{1, "X"}` — yet no single line of the
input matches the entry pattern, so the entries are not one per matching
line. -/
theorem C4_per_line_counterexample :
    (parse_boot_targets "Boot0001* \nX\ty").targets = [⟨1, "X"⟩] ∧
    (linesOf "Boot0001* \nX\ty").countP (fun l => (entryOfLine l).isSome) = 0 ∧
    ([(⟨1, "X"⟩ : BootTarget)] : List BootTarget).length ≠ 0 := by
  decide

/-- C4 (amended): for every input text the parser returns a catalog
without raising an error (it is a total function); its entries are
exactly one per non-overlapping match of the entry pattern — each match
anchored at a line start, normally within that line, though the
whitespace after the asterisk may span a line break — whose digit capture
parses as an unsigned 16-bit integer; captures with an unparseable
numeric field are silently skipped, and the entries appear in the same
top-to-bottom order as the matches. -/
theorem C4_parser_entries (raw : String) :
    ((parse_boot_targets raw).targets = (entryCaptures raw.data).filterMap entryOfCapture ∧
     (parse_boot_targets raw).targets.length
       = (entryCaptures raw.data).countP (fun p => (entryOfCapture p).isSome)) ∧
    (parse_boot_targets "Boot0000* A\tx\nBoot99999* skip\ty\nBoot0001* B\tz\n").targets
      = [⟨0, "A"⟩, ⟨1, "B"⟩] := by
  have h1 : (parse_boot_targets raw).targets
      = (entryCaptures raw.data).filterMap entryOfCapture := by
    unfold parse_boot_targets
    rw [foldl_applyEntryCapture_targets, foldl_applyOptionCapture_targets]
    rfl
  exact ⟨⟨h1, by rw [h1, length_filterMap_eq_countP]⟩, by decide⟩

/-- Counterexample for C5: on `"BootCurrent:\n 5"` the whitespace after
the colon spans the line break, so the program's regex finds a match with
value `5` and the parser sets `current = some 5` — yet no single line of
the input is a `BootCurrent: v` annotation line, where the claim would
leave the field `none`. -/
theorem C5_per_line_counterexample :
    (parse_boot_targets "BootCurrent:\n 5").current = some 5 ∧
    (linesOf "BootCurrent:\n 5").countP
        (fun l => (optionValueLine "BootCurrent" l).isSome) = 0 ∧
    (some 5 : Option Nat) ≠ Option.none := by
  decide

/-- C5 (amended): a `BootCurrent:` / `BootNext:` match of the annotation
pattern — anchored at a line start, the whitespace after the colon
possibly spanning a line break — whose value parses as an unsigned 16-bit
integer sets the corresponding field to `some` of that integer
(`BootNext: 0007` gives `some 7`); a match whose value fails to parse
sets the field to `some 1`; absence of any match with the key leaves the
field `none` (with several matches the last one wins). -/
theorem C5_annotations (raw : String) :
    ((parse_boot_targets raw).current
        = annotFieldSpec "BootCurrent" (optionCaptures raw.data) ∧
     (parse_boot_targets raw).next
        = annotFieldSpec "BootNext" (optionCaptures raw.data)) ∧
    (parse_boot_targets "BootCurrent: 3").current = some 3 ∧
    (parse_boot_targets "BootNext: 0007").next = some 7 ∧
    (parse_boot_targets "BootCurrent: abc").current = some 1 ∧
    (parse_boot_targets "Timeout: 1 seconds").current = Option.none ∧
    (parse_boot_targets "Timeout: 1 seconds").next = Option.none :=
  ⟨⟨parse_current_eq raw, parse_next_eq raw⟩,
    by decide, by decide, by decide, by decide, by decide⟩

theorem startsWithChars_nil (l : List Char) : startsWithChars l [] = true := by
  cases l <;> rfl

theorem find_first_complete {α : Type} (p : α → Bool) (l1 l2 : List α) (a : α)
    (ha : p a = true) (h1 : ∀ x ∈ l1, p x = false) :
    (l1 ++ a :: l2).find? p = some a := by
  induction l1 with
  | nil => simpa using List.find?_cons_of_pos l2 ha
  | cons b t ih =>
      rw [List.cons_append,
        List.find?_cons_of_neg _ (by simp [h1 b (List.mem_cons_self b t)])]
      exact ih (fun x hx => h1 x (List.mem_cons_of_mem b hx))

theorem find_first_iff {α : Type} (p : α → Bool) (l : List α) (a : α) :
    l.find? p = some a ↔
      (p a = true ∧ ∃ l1 l2, l = l1 ++ a :: l2 ∧ ∀ x ∈ l1, p x = false) := by
  constructor
  · exact find_first_split p l a
  · rintro ⟨hpa, l1, l2, rfl, hall⟩
    exact find_first_complete p l1 l2 a hpa hall

/-- C6: a query that parses fully as an unsigned 16-bit integer is looked
up by id — the result is `some t` exactly when `t` is the first entry
with that id, and `none` exactly when no entry has it, with no fallback
to name matching; any other query is looked up as an exact case-sensitive
name beginning — the result is `some t` exactly when `t` is the first
entry whose name starts with the query, and `none` exactly when no name
does. -/
theorem C6_lookup_dispatch (ts : BootTargets) (q : String) :
    (∀ n, parse_u16 q = some n →
       (∀ t, ts.lookup q = some t ↔
          (t.id = n ∧ ∃ l1 l2, ts.targets = l1 ++ t :: l2 ∧ ∀ u ∈ l1, u.id ≠ n)) ∧
       (ts.lookup q = Option.none ↔ ∀ t ∈ ts.targets, t.id ≠ n)) ∧
    (parse_u16 q = Option.none →
       (∀ t, ts.lookup q = some t ↔
          (starts_with t.name q = true ∧
            ∃ l1 l2, ts.targets = l1 ++ t :: l2 ∧ ∀ u ∈ l1, starts_with u.name q = false)) ∧
       (ts.lookup q = Option.none ↔ ∀ t ∈ ts.targets, starts_with t.name q = false)) := by
  constructor
  · intro n hn
    have hl : ts.lookup q = ts.targets.find? (fun t => t.id == n) := by
      simp only [BootTargets.lookup, hn]
    constructor
    · intro t
      rw [hl, find_first_iff]
      constructor
      · rintro ⟨hpt, l1, l2, heq, hall⟩
        exact ⟨by simpa using hpt, l1, l2, heq, fun u hu => by simpa using hall u hu⟩
      · rintro ⟨hpt, l1, l2, heq, hall⟩
        exact ⟨by simpa using hpt, l1, l2, heq, fun u hu => by simpa using hall u hu⟩
    · rw [hl, List.find?_eq_none]
      constructor
      · intro h t ht
        simpa using h t ht
      · intro h t ht
        simpa using h t ht
  · intro hn
    have hl : ts.lookup q = ts.targets.find? (fun t => starts_with t.name q) := by
      simp only [BootTargets.lookup, hn]
    constructor
    · intro t
      rw [hl, find_first_iff]
    · rw [hl, List.find?_eq_none]
      constructor
      · intro h t ht
        simpa using h t ht
      · intro h t ht
        simpa using h t ht

/-- Witness for C6: the query `"7"` parses as the integer 7, so against a
catalog whose only entry is named `"7"` but has id 1 the lookup returns
`none` (no fallback to name matching), while against a catalog that also
holds id 7 further down it returns that entry. -/
theorem C6_lookup_dispatch_witness :
    BootTargets.lookup ⟨[⟨1, "7"⟩], Option.none, Option.none⟩ "7" = Option.none ∧
    BootTargets.lookup ⟨[⟨1, "7"⟩, ⟨7, "x"⟩], Option.none, Option.none⟩ "7"
      = some ⟨7, "x"⟩ := by
  constructor
  · exact ((C6_lookup_dispatch ⟨[⟨1, "7"⟩], Option.none, Option.none⟩ "7").1 7
      (by decide)).2.mpr (by decide)
  · exact (((C6_lookup_dispatch ⟨[⟨1, "7"⟩, ⟨7, "x"⟩], Option.none, Option.none⟩ "7").1 7
      (by decide)).1 ⟨7, "x"⟩).mpr ⟨by decide, [⟨1, "7"⟩], [], rfl, by decide⟩

/-- C10: the empty query does not parse as an unsigned 16-bit integer, so
the name branch is taken, and every name starts with the empty string —
lookup with the empty query returns the first entry of the catalog, and
`none` for an empty catalog. -/
theorem C10_empty_query (ts : BootTargets) :
    ts.lookup "" = ts.targets.head? := by
  have h0 : parse_u16 "" = Option.none := rfl
  have hl : ts.lookup "" = ts.targets.find? (fun t => starts_with t.name "") := by
    simp only [BootTargets.lookup, h0]
  rw [hl]
  cases ts.targets with
  | nil => rfl
  | cons a l =>
      rw [List.find?_cons_of_pos]
      · rfl
      · show starts_with a.name "" = true
        have := startsWithChars_nil a.name.data
        simpa [starts_with] using this

theorem nil_append_str (s : String) : String.mk [] ++ s = s := by
  cases s with
  | mk d => rfl

/-- C7: on a non-empty catalog with the selection at a valid index `i`,
`Down` wraps from the last row to row 0 and otherwise moves one row down;
`Up` wraps from row 0 to the last row and otherwise moves one row up;
`Home` selects row 0 and `End` the last row.  (`navResult` is the
selection observed after the next draw; the list length is bounded by
`usize::MAX`, as any Rust vector's is.) -/
theorem C7_navigation (ts : List BootTarget) (act : ChosenAction) (i : Nat)
    (hlen : ts.length ≤ USIZE_MAX) (hi : i < ts.length) :
    navResult ts ⟨some i, act⟩ Key.down
        = some (some (if i = ts.length - 1 then 0 else i + 1)) ∧
    navResult ts ⟨some i, act⟩ Key.up
        = some (some (if i = 0 then ts.length - 1 else i - 1)) ∧
    navResult ts ⟨some i, act⟩ Key.home = some (some 0) ∧
    navResult ts ⟨some i, act⟩ Key.endKey = some (some (ts.length - 1)) := by
  have hn0 : ¬ ts.length = 0 := by omega
  have hlast : min USIZE_MAX (ts.length - 1) = ts.length - 1 := by
    apply Nat.min_eq_right; omega
  refine ⟨?_, ?_, ?_, ?_⟩
  · by_cases hc : i ≥ ts.length - 1
    · have hie : i = ts.length - 1 := by omega
      simp [navResult, handleKeyPress, hn0, hc, selectFirst, renderClamp, hie]
    · have hne : ¬ i = ts.length - 1 := by omega
      have h1 : min (i + 1) USIZE_MAX = i + 1 := by
        apply Nat.min_eq_left; omega
      have h2 : min (i + 1) (ts.length - 1) = i + 1 := by
        apply Nat.min_eq_left; omega
      simp [navResult, handleKeyPress, hn0, hc, selectNext, renderClamp, hne, h1, h2]
  · by_cases hc : i = 0
    · simp [navResult, handleKeyPress, hn0, hc, selectLast, renderClamp, hlast]
    · have hc2 : ¬ i ≤ 0 := by omega
      have h2 : min (i - 1) (ts.length - 1) = i - 1 := by
        apply Nat.min_eq_left; omega
      simp [navResult, handleKeyPress, hn0, hc, hc2, selectPrevious, renderClamp, h2]
  · simp [navResult, handleKeyPress, hn0, selectFirst, renderClamp]
  · simp [navResult, handleKeyPress, hn0, selectLast, renderClamp, hlast]

/-- Witness for C7: on a 3-entry catalog with row 2 selected, `Down`
wraps to row 0, `Up` moves to row 1, `Home` selects row 0 and `End`
row 2. -/
theorem C7_navigation_witness :
    navResult [⟨0, "Linux"⟩, ⟨1, "Windows"⟩, ⟨2, "Other"⟩] ⟨some 2, ChosenAction.none⟩
        Key.down = some (some 0) ∧
    navResult [⟨0, "Linux"⟩, ⟨1, "Windows"⟩, ⟨2, "Other"⟩] ⟨some 2, ChosenAction.none⟩
        Key.up = some (some 1) ∧
    navResult [⟨0, "Linux"⟩, ⟨1, "Windows"⟩, ⟨2, "Other"⟩] ⟨some 2, ChosenAction.none⟩
        Key.home = some (some 0) ∧
    navResult [⟨0, "Linux"⟩, ⟨1, "Windows"⟩, ⟨2, "Other"⟩] ⟨some 2, ChosenAction.none⟩
        Key.endKey = some (some 2) :=
  C7_navigation [⟨0, "Linux"⟩, ⟨1, "Windows"⟩, ⟨2, "Other"⟩] ChosenAction.none 2
    (by decide) (by decide)

/-- C8: `Enter` always exits the loop; a selection that is a valid entry
index sets the action to `RebootTo` of that entry, any other selection
leaves the action unchanged.  `n` behaves identically with `SetNext`. -/
theorem C8_enter_and_n (ts : List BootTarget) (st : LoopState) :
    (∀ i, ∀ h : i < ts.length, st.selected = some i →
        handleKeyPress ts st Key.enter
            = StepOutcome.exit { st with action := ChosenAction.rebootTo (ts.get ⟨i, h⟩) } ∧
        handleKeyPress ts st Key.charN
            = StepOutcome.exit { st with action := ChosenAction.setNext (ts.get ⟨i, h⟩) }) ∧
    ((∀ i, st.selected = some i → ts.length ≤ i) →
        handleKeyPress ts st Key.enter = StepOutcome.exit st ∧
        handleKeyPress ts st Key.charN = StepOutcome.exit st) := by
  constructor
  · intro i h hsel
    have hget : ts.get? i = some (ts.get ⟨i, h⟩) := List.get?_eq_get h
    constructor <;> simp [handleKeyPress, chosenFor, hsel, h, hget]
  · intro hinv
    obtain ⟨sel, act⟩ := st
    cases sel with
    | none => constructor <;> rfl
    | some i =>
        have hge : ¬ i < ts.length := by
          have := hinv i rfl
          omega
        constructor <;> simp [handleKeyPress, chosenFor, hge]

/-- Witness for C8: with the only entry selected, `Enter` exits choosing
`RebootTo` of it and `n` exits choosing `SetNext` of it. -/
theorem C8_enter_and_n_witness :
    handleKeyPress [⟨7, "ubuntu"⟩] ⟨some 0, ChosenAction.none⟩ Key.enter
        = StepOutcome.exit ⟨some 0, ChosenAction.rebootTo ⟨7, "ubuntu"⟩⟩ ∧
    handleKeyPress [⟨7, "ubuntu"⟩] ⟨some 0, ChosenAction.none⟩ Key.charN
        = StepOutcome.exit ⟨some 0, ChosenAction.setNext ⟨7, "ubuntu"⟩⟩ :=
  (C8_enter_and_n [⟨7, "ubuntu"⟩] ⟨some 0, ChosenAction.none⟩).1 0 (by decide) rfl

/-- C3: on a catalog with zero entries, `Down` evaluates
`item_count - 1 = 0usize - 1`, a `usize` underflow (a panic in debug
builds, a wrap-around in release builds) — refuting the claim that no
navigation key underflows on an empty list.  `Up`, `Home` and `End` only
store a new selection and are harmless. -/
theorem C3_empty_catalog_down :
    handleKeyPress ([] : List BootTarget) initLoopState Key.down = StepOutcome.underflow ∧
    navResult [] initLoopState Key.up = some selectLast ∧
    navResult [] initLoopState Key.home = some selectFirst ∧
    navResult [] initLoopState Key.endKey = some selectLast := by
  decide

/-- C2: an I/O error from the draw / poll / read calls is propagated by
`?` before the restore lines are reached, so the loop returns the error
with the terminal NOT restored (`restored = false`) — refuting the claim
that the restore is attempted on every exit; a plain quit does restore
the terminal. -/
theorem C2_restore_skipped_on_io_error :
    tui_selection [⟨7, "ubuntu"⟩] [IoEvent.ioError]
        = some ⟨false, false, ChosenAction.none⟩ ∧
    tui_selection [⟨7, "ubuntu"⟩] [IoEvent.keyPress Key.charQ]
        = some ⟨true, true, ChosenAction.none⟩ := by
  decide

/-- C1: when the set-next command launches but exits with the non-zero
status 1, `reboot_to` prints the non-zero-status message and still
invokes the reboot command — for every exit code, the invocation list
ends with `shutdown -r now` — refuting the claim that a non-zero set-next
exit prevents the reboot invocation. -/
theorem C1_reboot_after_failed_set_next :
    statusSuccess (CmdOutcome.exited 1) = false ∧
    (reboot_to ⟨7, "ubuntu"⟩ (CmdOutcome.exited 1) (CmdOutcome.exited 0)).messages
        = [Msg.nonZeroSetNext 1] ∧
    (∀ c : Int, ∀ o : CmdOutcome,
        (reboot_to ⟨7, "ubuntu"⟩ (CmdOutcome.exited c) o).invocations
          = [set_next_boot_cmd ⟨7, "ubuntu"⟩, shutdown_cmd]) :=
  ⟨by decide, by decide, fun c o => rfl⟩

/-- Counterexample for C9: dispatching `SetNext` for the entry with id
10000 invokes `efibootmgr` with TWO arguments — the flag and the id are
not passed as a single argument — and the formatted id `"10000"` has
five characters, not four. -/
theorem C9_single_argument_counterexample :
    (dispatch_action (ChosenAction.setNext ⟨10000, "entry"⟩)
        (CmdOutcome.exited 0) (CmdOutcome.exited 0)).invocations
      = [⟨"efibootmgr", ["--bootnext", "10000"]⟩] ∧
    (["--bootnext", "10000"] : List String).length ≠ 1 ∧
    ("10000" : String).length ≠ 4 := by
  decide

/-- C9 (amended): dispatching `SetNext` invokes the set-next command with
two arguments, the literal flag `--bootnext` followed by the entry's id
in decimal left-padded with `'0'` to a minimum width of four characters
(so exactly four digits for ids up to 9999, e.g. `"0007"`, and printed in
full beyond that, e.g. `"65535"`). -/
theorem C9_set_next_arguments (t : BootTarget) (o1 o2 : CmdOutcome) :
    (dispatch_action (ChosenAction.setNext t) o1 o2).invocations
        = [⟨"efibootmgr", ["--bootnext", format_width4 t.id]⟩] ∧
    (∃ k, format_width4 t.id = String.mk (List.replicate k '0') ++ Nat.repr t.id ∧
        4 ≤ k + (Nat.repr t.id).length) ∧
    format_width4 7 = "0007" ∧ format_width4 65535 = "65535" := by
  refine ⟨?_, ?_, by decide, by decide⟩
  · cases o1 <;> rfl
  · unfold format_width4
    by_cases h : (Nat.repr t.id).length < 4
    · refine ⟨4 - (Nat.repr t.id).length, ?_, by omega⟩
      simp [h]
    · refine ⟨0, ?_, by omega⟩
      simp only [h, if_false]
      exact (nil_append_str _).symm

end RebootTo
